import Mathlib

/-!
Verification of core behaviours of the DICOM-RST protocol adapter against a
shallow embedding of its Rust source. Each section embeds the data model and
functions of one source file and proves the stated properties about them.
-/

namespace DicomRst

/-!
Section: DIMSE status classification.

Embeds `TryFrom<u16> for StatusType` from `src/backend/dimse/mod.rs`
(lines 89-103) and the `.unwrap_or(StatusType::Failure)` applied by its
callers (`src/backend/dimse/cmove/movescu.rs` line 55,
`src/backend/dimse/cfind/findscu.rs` lines 86-87).
-/

inductive StatusType where
  | success
  | warning
  | failure
  | cancel
  | pending
  deriving DecidableEq, Repr

/-- Embedding of `TryFrom<u16> for StatusType`. The Rust match arms are tried
in order; `Err(value)` is modelled as `none`. Status values are `u16`, so
the embedding takes a `Nat` understood as `< 2^16`. -/
def statusTryFrom (value : Nat) : Option StatusType :=
  if value = 0 then some .success
  else if value = 1 ∨ value = 0x0107 ∨ value = 0x0116 ∨
      (0xB000 ≤ value ∧ value ≤ 0xBFFF) then some .warning
  else if (0xA000 ≤ value ∧ value ≤ 0xAFFF) ∨ (0x0100 ≤ value ∧ value ≤ 0x01FF) ∨
      (0x0200 ≤ value ∧ value ≤ 0x02FF) then some .failure
  else if value = 0xFE00 then some .cancel
  else if value = 0xFF00 ∨ value = 0xFF01 then some .pending
  else none

/-- Status classification as used by the SCUs: the `TryFrom` conversion with
unknown codes treated as `Failure` (`.unwrap_or(StatusType::Failure)`). -/
def statusClass (value : Nat) : StatusType :=
  (statusTryFrom value).getD .failure

/-- Classification written from the spec sentence, reading the listed classes
in order: `0x0000` Success; `{0x0001, 0x0107, 0x0116, 0xB000-0xBFFF}` Warning;
`{0xA000-0xAFFF, 0x0100-0x02FF}` Failure; `0xFE00` Cancel; `{0xFF00, 0xFF01}`
Pending; every other code Failure. -/
def specStatusClass (value : Nat) : StatusType :=
  if value = 0x0000 then .success
  else if value = 0x0001 ∨ value = 0x0107 ∨ value = 0x0116 ∨
      (0xB000 ≤ value ∧ value ≤ 0xBFFF) then .warning
  else if (0xA000 ≤ value ∧ value ≤ 0xAFFF) ∨ (0x0100 ≤ value ∧ value ≤ 0x02FF) then .failure
  else if value = 0xFE00 then .cancel
  else if value = 0xFF00 ∨ value = 0xFF01 then .pending
  else .failure

/-- Claim C3: status classification is a total function on `u16` — every
status value maps to exactly one of Success/Warning/Failure/Cancel/Pending,
with `0x0000` Success, `{0x0001, 0x0107, 0x0116, 0xB000-0xBFFF}` Warning,
`{0xA000-0xAFFF, 0x0100-0x02FF}` Failure, `0xFE00` Cancel, `{0xFF00, 0xFF01}`
Pending, and every other code treated as Failure: `statusClass` (a total
function, hence exactly one class per value) agrees with the classification
transcribed from the spec on every `u16` value. -/
theorem statusClass_total_eq_spec (value : Nat) (h : value < 65536) :
    statusClass value = specStatusClass value := by
  unfold statusClass statusTryFrom specStatusClass
  split_ifs <;> simp_all <;> omega

/-- Witness for claim C3's theorem at the concrete status value `0xB123`. -/
theorem statusClass_total_eq_spec_witness :
    statusClass 0xB123 = specStatusClass 0xB123 :=
  statusClass_total_eq_spec 0xB123 (by decide)

/-!
Section: C-MOVE/C-STORE mediator.

Embeds `src/backend/dimse/cmove/mediator.rs`: `SubscriptionTopic`,
`MoveMediator::{subscribe, publish}` and `Drop for Subscription`. The
`tokio::mpsc::Sender` callbacks are modelled by channel identifiers plus a
predicate saying whether a channel's receiver is still open; `HashMap` is
modelled by an association list with unique keys (lookup by `List.lookup`).
-/

/-- Embedding of `SubscriptionTopic { originator: AE, message_id: Option<US> }`. -/
structure SubscriptionTopic where
  originator : String
  messageId : Option Nat
  deriving DecidableEq, Repr

/-- Channels are identified by a number; the item sent on a channel is
abstracted away (the mediator forwards it unchanged). -/
abbrev Chan := Nat

/-- Embedding of `MediatorError`. -/
inductive MediatorError where
  | channelClosed
  | missingCallback (topic : SubscriptionTopic)
  deriving DecidableEq, Repr

/-- Callback registry: the mediator's `callbacks: HashMap<SubscriptionTopic, Callback>`,
modelled as an association list with unique keys. -/
abbrev Callbacks := List (SubscriptionTopic × Chan)

/-- HashMap lookup on the association-list model. -/
def mapLookup (callbacks : Callbacks) (topic : SubscriptionTopic) : Option Chan :=
  match callbacks with
  | [] => none
  | (key, chan) :: rest => if key = topic then some chan else mapLookup rest topic

/-- Callback resolution inside `MoveMediator::publish` (mediator.rs lines
88-98): when the topic carries a message id, look up the exact topic and fall
back to `(originator, None)`; otherwise look up only the exact topic. -/
def resolveCallback (callbacks : Callbacks) (topic : SubscriptionTopic) : Option Chan :=
  if topic.messageId.isSome then
    (mapLookup callbacks topic).or
      (mapLookup callbacks { originator := topic.originator, messageId := none })
  else
    mapLookup callbacks topic

/-- Embedding of `MoveMediator::publish` (mediator.rs lines 83-110). A
successful send returns the channel the item was sent on; `send` fails (and
`publish` returns `ChannelClosed`) exactly when the channel's receiver is
gone, modelled by `receiverOpen`. With no resolved callback the result is
`MissingCallback`. -/
def publish (callbacks : Callbacks) (receiverOpen : Chan → Bool)
    (topic : SubscriptionTopic) : Except MediatorError Chan :=
  match resolveCallback callbacks topic with
  | some chan => if receiverOpen chan then .ok chan else .error .channelClosed
  | none => .error (.missingCallback topic)

/-- Claim C1: for every `publish(topic, item)` call, when `topic.message_id`
is `Some` the callback is resolved by first looking up the exact topic and,
if absent, falling back to `(topic.originator, None)`; for `message_id =
None` only the exact topic is looked up. The item is sent on the resolved
channel; `publish` returns `ChannelClosed` when the resolved channel's
receiver is gone, and `MissingCallback` when no callback is registered under
either topic. -/
theorem publish_resolution (callbacks : Callbacks) (receiverOpen : Chan → Bool)
    (topic : SubscriptionTopic) :
    (∀ chan, mapLookup callbacks topic = some chan →
      publish callbacks receiverOpen topic =
        (if receiverOpen chan then .ok chan else .error .channelClosed)) ∧
    (∀ id chan, topic.messageId = some id → mapLookup callbacks topic = none →
      mapLookup callbacks { originator := topic.originator, messageId := none } = some chan →
      publish callbacks receiverOpen topic =
        (if receiverOpen chan then .ok chan else .error .channelClosed)) ∧
    (∀ id, topic.messageId = some id → mapLookup callbacks topic = none →
      mapLookup callbacks { originator := topic.originator, messageId := none } = none →
      publish callbacks receiverOpen topic = .error (.missingCallback topic)) ∧
    (topic.messageId = none → mapLookup callbacks topic = none →
      publish callbacks receiverOpen topic = .error (.missingCallback topic)) := by
  refine ⟨?_, ?_, ?_, ?_⟩
  · intro chan hexact
    unfold publish resolveCallback
    rcases h : topic.messageId with _ | id <;> simp [h, hexact]
  · intro id chan hid hexact hfall
    unfold publish resolveCallback
    simp [hid, hexact, hfall]
  · intro id hid hexact hfall
    unfold publish resolveCallback
    simp [hid, hexact, hfall]
  · intro hid hexact
    unfold publish resolveCallback
    simp [hid, hexact]

/-- Witness for claim C1's theorem: a registry holding only the fallback
topic for originator `"PACS"`, published to with message id `7`; the open
channel `3` receives the item. -/
theorem publish_resolution_witness :
    publish [({ originator := "PACS", messageId := none }, 3)] (fun _ => true)
      { originator := "PACS", messageId := some 7 } = .ok 3 := by
  have h := (publish_resolution
      [({ originator := "PACS", messageId := none }, 3)] (fun _ => true)
      { originator := "PACS", messageId := some 7 }).2.1 7 3 rfl (by decide) (by decide)
  simpa using h

/-!
Subscription lifecycle, for claim C9. `MoveMediator::subscribe` (mediator.rs
lines 53-76) inserts the callback into the `HashMap` under the topic (an
insert overwrites any previous entry for the same key) and returns a
`Subscription` handle; `Drop for Subscription` (lines 133-144) removes the
entry stored under the subscription's topic. The mediator's map plus the set
of live subscriptions is modelled as an explicit state on which the two
operations act.
-/

/-- A live `Subscription` handle: the topic it was registered under and the
channel (callback) it carries. -/
structure Subscription where
  topic : SubscriptionTopic
  chan : Chan
  deriving DecidableEq, Repr

/-- Mediator state: the callback map together with the live subscriptions. -/
structure MediatorState where
  callbacks : Callbacks
  live : List Subscription
  deriving Repr

/-- HashMap remove of a key. -/
def mapRemove (callbacks : Callbacks) (topic : SubscriptionTopic) : Callbacks :=
  match callbacks with
  | [] => []
  | (key, chan) :: rest =>
      if key = topic then mapRemove rest topic else (key, chan) :: mapRemove rest topic

/-- HashMap insert: the new binding replaces any binding of the same key. -/
def mapInsert (callbacks : Callbacks) (topic : SubscriptionTopic) (chan : Chan) : Callbacks :=
  (topic, chan) :: mapRemove callbacks topic

/-- Embedding of `MoveMediator::subscribe`: insert the callback keyed by the
topic and hand out the live subscription handle. -/
def subscribe (st : MediatorState) (topic : SubscriptionTopic) (chan : Chan) : MediatorState :=
  { callbacks := mapInsert st.callbacks topic chan
    live := { topic := topic, chan := chan } :: st.live }

/-- Embedding of `Drop for Subscription`: remove the entry stored under the
subscription's topic; the handle is no longer live. -/
def dropSubscription (st : MediatorState) (s : Subscription) : MediatorState :=
  { callbacks := mapRemove st.callbacks s.topic
    live := st.live.erase s }

/-- The invariant of claim C9: at most one live subscription per topic, and
the callback map holds every live subscription's entry. -/
def MediatorInvariant (st : MediatorState) : Prop :=
  (st.live.map Subscription.topic).Nodup ∧
  ∀ s ∈ st.live, mapLookup st.callbacks s.topic = some s.chan

theorem mapLookup_mapRemove_self (callbacks : Callbacks) (topic : SubscriptionTopic) :
    mapLookup (mapRemove callbacks topic) topic = none := by
  induction callbacks with
  | nil => simp [mapRemove, mapLookup]
  | cons entry rest ih =>
    obtain ⟨key, chan⟩ := entry
    by_cases he : key = topic
    · simpa [mapRemove, he] using ih
    · simp [mapRemove, mapLookup, he, ih]

theorem mapLookup_mapRemove_other (callbacks : Callbacks) (topic other : SubscriptionTopic)
    (h : other ≠ topic) :
    mapLookup (mapRemove callbacks topic) other = mapLookup callbacks other := by
  induction callbacks with
  | nil => simp [mapRemove]
  | cons entry rest ih =>
    obtain ⟨key, chan⟩ := entry
    have hto : topic ≠ other := fun hc => h hc.symm
    by_cases he : key = topic
    · simp [mapRemove, mapLookup, he, hto, ih]
    · by_cases ho : key = other
      · simp [mapRemove, mapLookup, he, ho, h]
      · simp [mapRemove, mapLookup, he, ho, ih]

theorem mapLookup_mapInsert_self (callbacks : Callbacks) (topic : SubscriptionTopic)
    (chan : Chan) :
    mapLookup (mapInsert callbacks topic chan) topic = some chan := by
  simp [mapInsert, mapLookup]

theorem mapLookup_mapInsert_other (callbacks : Callbacks) (topic other : SubscriptionTopic)
    (chan : Chan) (h : other ≠ topic) :
    mapLookup (mapInsert callbacks topic chan) other = mapLookup callbacks other := by
  have hne : topic ≠ other := fun hc => h hc.symm
  simp [mapInsert, mapLookup, hne, mapLookup_mapRemove_other callbacks topic other h]

/-- Claim C9: for every subscription `s` alive at a reachable state, the
mediator's callback map contains the entry `s.topic -> s.callback`, with at
most one live subscription per topic; upon drop of `s`, the entry for
`s.topic` is absent from the map. Stated as an inductive invariant: it holds
in the initial state, `subscribe` with a not-yet-live topic preserves it and
registers the new entry, and dropping a live subscription preserves it and
removes exactly that topic's entry. -/
theorem mediator_subscription_invariant :
    MediatorInvariant { callbacks := [], live := [] } ∧
    (∀ st topic chan, MediatorInvariant st →
      topic ∉ st.live.map Subscription.topic →
      MediatorInvariant (subscribe st topic chan) ∧
      mapLookup (subscribe st topic chan).callbacks topic = some chan) ∧
    (∀ st s, MediatorInvariant st → s ∈ st.live →
      MediatorInvariant (dropSubscription st s) ∧
      mapLookup (dropSubscription st s).callbacks s.topic = none) := by
  refine ⟨⟨by simp, by simp⟩, ?_, ?_⟩
  · intro st topic chan hinv hfresh
    obtain ⟨hnodup, hmap⟩ := hinv
    refine ⟨⟨?_, ?_⟩, mapLookup_mapInsert_self st.callbacks topic chan⟩
    · have hmapeq : (subscribe st topic chan).live.map Subscription.topic
          = topic :: st.live.map Subscription.topic := by
        simp [subscribe]
      rw [hmapeq]
      exact List.nodup_cons.mpr ⟨hfresh, hnodup⟩
    · intro s hs
      simp only [subscribe, List.mem_cons] at hs
      rcases hs with rfl | hs
      · exact mapLookup_mapInsert_self st.callbacks topic chan
      · have hne : s.topic ≠ topic := by
          intro hc
          exact hfresh (hc ▸ List.mem_map_of_mem Subscription.topic hs)
        rw [show (subscribe st topic chan).callbacks = mapInsert st.callbacks topic chan from rfl,
          mapLookup_mapInsert_other st.callbacks topic s.topic chan hne]
        exact hmap s hs
  · intro st s hinv hlive
    obtain ⟨hnodup, hmap⟩ := hinv
    have hsub : List.Sublist (st.live.erase s) st.live := List.erase_sublist s st.live
    have hlnd : st.live.Nodup := hnodup.of_map Subscription.topic
    refine ⟨⟨?_, ?_⟩, mapLookup_mapRemove_self st.callbacks s.topic⟩
    · exact List.Nodup.sublist (hsub.map Subscription.topic) hnodup
    · intro t ht
      have ht2 : t ≠ s ∧ t ∈ st.live := (List.Nodup.mem_erase_iff hlnd).mp ht
      have hne : t.topic ≠ s.topic := by
        intro hc
        exact ht2.1 (List.inj_on_of_nodup_map hnodup ht2.2 hlive hc)
      rw [show (dropSubscription st s).callbacks = mapRemove st.callbacks s.topic from rfl,
        mapLookup_mapRemove_other st.callbacks s.topic t.topic hne]
      exact hmap t ht2.2

/-- Witness for claim C9's theorem: subscribing topic `("PACS", Some 1)` on
channel `5` in the empty state yields an invariant-satisfying state whose map
holds the new entry. -/
theorem mediator_subscription_invariant_witness :
    MediatorInvariant
      (subscribe { callbacks := [], live := [] } { originator := "PACS", messageId := some 1 } 5) ∧
    mapLookup
      (subscribe { callbacks := [], live := [] }
        { originator := "PACS", messageId := some 1 } 5).callbacks
      { originator := "PACS", messageId := some 1 } = some 5 :=
  mediator_subscription_invariant.2.1
    { callbacks := [], live := [] } { originator := "PACS", messageId := some 1 } 5
    mediator_subscription_invariant.1 (by simp)

/-!
Section: association pool.

Embeds `src/backend/dimse/association/pool.rs`: `PresentationParameter` and
its `PartialEq`, and the body of `Pool::get` (lines 54-123). A pooled object
is identified by a number; the manager's `create` is modelled as producing a
fresh object (its failure propagates outside the claim), `recycle` as an
oracle predicate on the slot. The free list is a `VecDeque`: index 0 is the
front (oldest, `pop_front` discards it), the last element is the back. The
`tokio::time::timeout` wrapper is modelled by a flag saying whether the
deadline expired before the body completed. -/

/-- Embedding of `PresentationParameter`. -/
structure PresentationParameter where
  abstractSyntaxUid : String
  transferSyntaxUids : List String
  deriving DecidableEq, Repr

/-- Embedding of `PartialEq for PresentationParameter` (pool.rs lines
190-198), as used in `slot.parameter == parameter`: equal abstract syntax
UIDs and a non-empty intersection of the transfer-syntax lists. -/
def paramMatches (slotParam requested : PresentationParameter) : Bool :=
  slotParam.abstractSyntaxUid == requested.abstractSyntaxUid &&
    slotParam.transferSyntaxUids.any
      (fun ts => requested.transferSyntaxUids.contains ts)

/-- A pool slot (`ObjectInner`): the object, the parameter used to create it
and the recycle count from its metrics. -/
structure PoolSlot where
  obj : Nat
  parameter : PresentationParameter
  recycleCount : Nat
  deriving DecidableEq, Repr

/-- Pool errors relevant to the claim. -/
inductive PoolErrorT where
  | timeout
  deriving DecidableEq, Repr

/-- Embedding of `slots.iter().rposition(pred)` followed by
`slots.remove(position)`: remove the last slot satisfying the predicate and
return it with the remaining list; `(none, l)` when no slot matches. -/
def takeLastMatching (l : List PoolSlot) (p : PoolSlot → Bool) :
    Option PoolSlot × List PoolSlot :=
  match l with
  | [] => (none, [])
  | x :: xs =>
    match takeLastMatching xs p with
    | (some s, rest) => (some s, x :: rest)
    | (none, _) => if p x then (some x, xs) else (none, x :: xs)

/-- Embedding of the body of `Pool::get` after the semaphore permit is
obtained: scan the free list from the back for a matching slot; recycle it on
success (bumping the recycle count), otherwise create a fresh object with the
requested parameter; with no match, pop the front of the free list and create
a fresh object. The surrounding `tokio::time::timeout` yields
`PoolError::Timeout` when the deadline expires. -/
def poolGet (timedOut : Bool) (free : List PoolSlot) (parameter : PresentationParameter)
    (recycleOk : PoolSlot → Bool) (freshObj : Nat) :
    Except PoolErrorT (PoolSlot × List PoolSlot) :=
  if timedOut then .error .timeout
  else
    match takeLastMatching free (fun slot => paramMatches slot.parameter parameter) with
    | (some slot, rest) =>
        if recycleOk slot then
          .ok ({ slot with recycleCount := slot.recycleCount + 1 }, rest)
        else
          .ok ({ obj := freshObj, parameter := parameter, recycleCount := 0 }, rest)
    | (none, _) =>
        .ok ({ obj := freshObj, parameter := parameter, recycleCount := 0 }, free.drop 1)

theorem takeLastMatching_all_false (l : List PoolSlot) (p : PoolSlot → Bool)
    (h : ∀ x ∈ l, p x = false) : takeLastMatching l p = (none, l) := by
  induction l with
  | nil => rfl
  | cons x xs ih =>
    have hx : p x = false := h x (List.mem_cons_self x xs)
    have hxs := ih (fun y hy => h y (List.mem_cons_of_mem x hy))
    simp [takeLastMatching, hxs, hx]

theorem takeLastMatching_none_all_false (l : List PoolSlot) (p : PoolSlot → Bool)
    (h : (takeLastMatching l p).1 = none) : ∀ x ∈ l, p x = false := by
  induction l with
  | nil => simp
  | cons x xs ih =>
    intro y hy
    rw [takeLastMatching] at h
    rcases hxs : takeLastMatching xs p with ⟨found, r⟩
    rw [hxs] at h
    rcases found with _ | s
    · by_cases hx : p x = true
      · simp [hx] at h
      · rcases List.mem_cons.mp hy with rfl | hy2
        · exact Bool.eq_false_iff.mpr hx
        · exact ih (by simp [hxs]) y hy2
    · simp at h

theorem takeLastMatching_decomposition (l : List PoolSlot) (p : PoolSlot → Bool)
    (s : PoolSlot) (rest : List PoolSlot)
    (h : takeLastMatching l p = (some s, rest)) :
    ∃ pre post, l = pre ++ s :: post ∧ p s = true ∧
      (∀ x ∈ post, p x = false) ∧ rest = pre ++ post := by
  induction l generalizing s rest with
  | nil => simp [takeLastMatching] at h
  | cons x xs ih =>
    rw [takeLastMatching] at h
    rcases hxs : takeLastMatching xs p with ⟨found, r⟩
    rw [hxs] at h
    rcases found with _ | s₂
    · by_cases hx : p x = true
      · simp [hx] at h
        obtain ⟨rfl, rfl⟩ := h
        exact ⟨[], xs, by simp, hx,
          takeLastMatching_none_all_false xs p (by simp [hxs]), by simp⟩
      · simp [hx] at h
    · simp at h
      obtain ⟨rfl, rfl⟩ := h
      obtain ⟨pre, post, heq, hps, hpost, hrest⟩ := ih s₂ r hxs
      exact ⟨x :: pre, post, by simp [heq], hps, hpost, by simp [hrest]⟩

/-- Claim C6: for every `Pool::get(parameter)` call that obtains a semaphore
permit, the free list is scanned from the back for a slot whose parameter
matches (equal abstract syntax UID and non-empty intersection of the
transfer-syntax sets); if found, the slot is removed and recycled, a recycle
failure being recovered locally by creating a fresh object with the requested
parameter; if no match is found, the oldest free slot is discarded by popping
the front of the free list and a fresh object is created; failing to complete
within the pool timeout yields `PoolError::Timeout`. -/
theorem pool_get_behaviour (free : List PoolSlot) (parameter : PresentationParameter)
    (recycleOk : PoolSlot → Bool) (freshObj : Nat) :
    (poolGet true free parameter recycleOk freshObj = .error .timeout) ∧
    (∀ p q : PresentationParameter, paramMatches p q = true ↔
      (p.abstractSyntaxUid = q.abstractSyntaxUid ∧
        ∃ ts ∈ p.transferSyntaxUids, ts ∈ q.transferSyntaxUids)) ∧
    (∀ s rest,
      takeLastMatching free (fun slot => paramMatches slot.parameter parameter) =
        (some s, rest) →
      (∃ pre post, free = pre ++ s :: post ∧ paramMatches s.parameter parameter = true ∧
        (∀ x ∈ post, paramMatches x.parameter parameter = false) ∧ rest = pre ++ post) ∧
      (recycleOk s = true →
        poolGet false free parameter recycleOk freshObj =
          .ok ({ s with recycleCount := s.recycleCount + 1 }, rest)) ∧
      (recycleOk s = false →
        poolGet false free parameter recycleOk freshObj =
          .ok ({ obj := freshObj, parameter := parameter, recycleCount := 0 }, rest))) ∧
    ((∀ x ∈ free, paramMatches x.parameter parameter = false) →
      poolGet false free parameter recycleOk freshObj =
        .ok ({ obj := freshObj, parameter := parameter, recycleCount := 0 }, free.drop 1)) := by
  refine ⟨by simp [poolGet], ?_, ?_, ?_⟩
  · intro p q
    simp [paramMatches, List.any_eq_true]
  · intro s rest h
    refine ⟨takeLastMatching_decomposition free _ s rest h, ?_, ?_⟩
    · intro hr
      simp [poolGet, h, hr]
    · intro hr
      simp [poolGet, h, hr]
  · intro hall
    have h := takeLastMatching_all_false free
      (fun slot => paramMatches slot.parameter parameter) hall
    simp [poolGet, h]

/-- Concrete parameter used by claim C6's witness. -/
def sampleParameter : PresentationParameter :=
  { abstractSyntaxUid := "1.2.840.10008.5.1.4.1.2.2.2",
    transferSyntaxUids := ["1.2.840.10008.1.2"] }

/-- Concrete slot used by claim C6's witness. -/
def sampleSlot : PoolSlot :=
  { obj := 0, parameter := sampleParameter, recycleCount := 0 }

/-- Witness for claim C6's theorem: a free list holding one matching slot
that recycles successfully is handed out again with its recycle count
bumped, leaving the free list empty. -/
theorem pool_get_behaviour_witness :
    poolGet false [sampleSlot] sampleParameter (fun _ => true) 9 =
      .ok ({ obj := 0, parameter := sampleParameter, recycleCount := 1 }, []) := by
  exact ((pool_get_behaviour [sampleSlot] sampleParameter (fun _ => true) 9).2.2.1
    sampleSlot [] (by decide)).2.1 rfl

/-!
Section: message sending and P-DATA fragmentation.

Embeds `DicomMessageWriter::write_message` from `src/backend/dimse/mod.rs`
(lines 118-177) and `ClientAssociation::chunked_send` from
`src/backend/dimse/association/client.rs` (lines 32-61). DICOM objects are
abstracted to their encoded byte sequences (bytes as `Nat`s): a message is
the encoded command set plus an optional encoded data set. Every PDU sent by
`write_message` passes through `chunked_send` on the association's worker
thread. The fragmenting `PDataWriter` behind
`dicom::ul::ClientAssociation::send_pdata` lives in the external `dicom-rs`
crate, not in this repository, and is modelled from the spec below. -/

/-- Embedding of `dicom::ul::pdu::PDataValueType`. -/
inductive PDataValueType where
  | command
  | data
  deriving DecidableEq, Repr

/-- Embedding of `dicom::ul::pdu::PDataValue`. -/
structure PDataValue where
  valueType : PDataValueType
  presentationContextId : Nat
  isLast : Bool
  data : List Nat
  deriving DecidableEq, Repr

/-- A `Pdu::PData`: the list of PDVs it carries (the only PDU kind built by
`write_message` and fragmented by `chunked_send`). -/
abbrev PDataPdu := List PDataValue

/-- A DICOM message abstracted to encoded bytes: the command set (always
Implicit VR Little Endian) and the optional data set (encoded with the
context's transfer syntax). -/
structure MessageBytes where
  commandBytes : List Nat
  dataBytes : Option (List Nat)
  deriving DecidableEq, Repr

/-- Embedding of `write_message` (mod.rs lines 118-177) with the
presentation context already chosen: one `P-DATA` PDU holding a single
`Command` PDV with `is_last=true`, then, when a data set is present, one
`P-DATA` PDU holding a single `Data` PDV with `is_last=true`. -/
def writeMessage (msg : MessageBytes) (pcid : Nat) : List PDataPdu :=
  [[{ valueType := .command, presentationContextId := pcid, isLast := true,
      data := msg.commandBytes }]] ++
  (match msg.dataBytes with
   | some d =>
       [[{ valueType := .data, presentationContextId := pcid, isLast := true, data := d }]]
   | none => [])

/-- Modelled from the spec: the fragmentation performed by the `dicom-rs`
`PDataWriter` that `ClientAssociation::send_pdata` returns (external crate,
not under this repository's sources) splits the written bytes into
consecutive chunks of at most the acceptor's max PDU length. -/
def chunkBytes (maxLen : Nat) (bytes : List Nat) : List (List Nat) :=
  if bytes.length ≤ maxLen ∨ maxLen = 0 then [bytes]
  else bytes.take maxLen :: chunkBytes maxLen (bytes.drop maxLen)
termination_by bytes.length
decreasing_by
  simp only [List.length_drop]
  omega

/-- Pair every list element with a flag that is true exactly on the final
element. -/
def markLast : List α → List (α × Bool)
  | [] => []
  | [x] => [(x, true)]
  | x :: y :: rest => (x, false) :: markLast (y :: rest)

/-- Modelled from the spec: the PDUs emitted by one `send_pdata` writer for
one presentation context — one `P-DATA` PDU per chunk, each with a single
`Data` PDV, `is_last=true` only on the final chunk. -/
def pdataWriterPdus (pcid maxLen : Nat) (bytes : List Nat) : List PDataPdu :=
  (markLast (chunkBytes maxLen bytes)).map
    (fun chunk =>
      [{ valueType := .data, presentationContextId := pcid, isLast := chunk.2,
         data := chunk.1 }])

/-- Embedding of `ClientAssociation::chunked_send` (client.rs lines 32-61)
restricted to `Pdu::PData` (other PDUs pass through unchanged): a PDU whose
first PDV is a command is sent as-is; otherwise, when the summed PDV data
length exceeds the acceptor's max PDU length, each PDV's bytes go through a
`send_pdata` writer, else the PDU is sent as-is. -/
def chunkedSend (maxLen : Nat) (pdu : PDataPdu) : List PDataPdu :=
  let isCommand := pdu.head?.map PDataValue.valueType = some .command
  if isCommand then [pdu]
  else
    let dataLength := (pdu.map (fun pdv => pdv.data.length)).sum
    if maxLen < dataLength then
      pdu.flatMap (fun pdv => pdataWriterPdus pdv.presentationContextId maxLen pdv.data)
    else [pdu]

/-- All PDUs put on the wire for one message: `write_message` composed with
the worker's `chunked_send`. -/
def sendMessage (maxLen : Nat) (msg : MessageBytes) (pcid : Nat) : List PDataPdu :=
  (writeMessage msg pcid).flatMap (chunkedSend maxLen)

/-- The command PDVs of a PDU list, in order. -/
def commandPdvs (pdus : List PDataPdu) : List PDataValue :=
  pdus.flatten.filter (fun pdv => pdv.valueType = .command)

/-- The data PDVs of a PDU list, in order. -/
def dataPdvs (pdus : List PDataPdu) : List PDataValue :=
  pdus.flatten.filter (fun pdv => pdv.valueType = .data)

theorem chunkBytes_length_eq (maxLen : Nat) (hm : 0 < maxLen) :
    ∀ n (bytes : List Nat), bytes.length = n → 0 < n →
      (chunkBytes maxLen bytes).length = (n + maxLen - 1) / maxLen := by
  intro n
  induction n using Nat.strong_induction_on with
  | _ n ih =>
    intro bytes hlen hpos
    rw [chunkBytes]
    by_cases hle : bytes.length ≤ maxLen ∨ maxLen = 0
    · rw [if_pos hle]
      have hble : bytes.length ≤ maxLen := by omega
      have h1 : 1 * maxLen ≤ n + maxLen - 1 := by omega
      have h2 : n + maxLen - 1 < (1 + 1) * maxLen := by omega
      simpa using (Nat.div_eq_of_lt_le h1 h2).symm
    · rw [if_neg hle]
      push_neg at hle
      obtain ⟨hgt, -⟩ := hle
      have hdrop : (bytes.drop maxLen).length = n - maxLen := by
        simp [hlen]
      have hrec := ih (n - maxLen) (by omega) (bytes.drop maxLen) hdrop (by omega)
      have h1 : n - maxLen + maxLen - 1 = n - 1 := by omega
      have h2 : n + maxLen - 1 = n - 1 + maxLen := by omega
      simp only [List.length_cons, hrec, h1, h2, Nat.add_div_right _ hm]

theorem chunkBytes_flatten (maxLen : Nat) :
    ∀ n (bytes : List Nat), bytes.length = n → (chunkBytes maxLen bytes).flatten = bytes := by
  intro n
  induction n using Nat.strong_induction_on with
  | _ n ih =>
    intro bytes hlen
    rw [chunkBytes]
    by_cases hle : bytes.length ≤ maxLen ∨ maxLen = 0
    · rw [if_pos hle]
      simp
    · rw [if_neg hle]
      push_neg at hle
      have hrec := ih (n - maxLen) (by omega) (bytes.drop maxLen) (by simp [hlen])
      simp [hrec]

theorem chunkBytes_ne_nil (maxLen : Nat) (bytes : List Nat) :
    chunkBytes maxLen bytes ≠ [] := by
  rw [chunkBytes]
  by_cases hle : bytes.length ≤ maxLen ∨ maxLen = 0
  · simp [hle]
  · simp [hle]

theorem pdataWriterPdus_singleton (pcid maxLen : Nat) (bytes : List Nat) :
    ∀ pdu ∈ pdataWriterPdus pcid maxLen bytes, pdu.length = 1 := by
  intro pdu hpdu
  simp only [pdataWriterPdus, List.mem_map] at hpdu
  obtain ⟨chunk, -, rfl⟩ := hpdu
  rfl

theorem markLast_map_fst (l : List α) : (markLast l).map Prod.fst = l := by
  induction l with
  | nil => rfl
  | cons x xs ih =>
    cases xs with
    | nil => rfl
    | cons y rest => simpa [markLast] using ih

theorem markLast_length (l : List α) : (markLast l).length = l.length := by
  have := congrArg List.length (markLast_map_fst l)
  simpa using this

theorem markLast_map_snd (l : List α) (h : l ≠ []) :
    (markLast l).map Prod.snd = List.replicate (l.length - 1) false ++ [true] := by
  induction l with
  | nil => exact absurd rfl h
  | cons x xs ih =>
    cases xs with
    | nil => rfl
    | cons y rest =>
      have := ih (by simp)
      simp [markLast, this, List.replicate_succ]

/-- Claim C2: a data set encoding to more bytes than the acceptor's maximum
PDU length is split into exactly `ceil(len / max)` Data PDVs on the same
presentation context with `is_last=true` only on the final fragment; a data
set at or below the limit is sent as a single Data PDV with `is_last=true`;
the command set is always one Command PDV with `is_last=true`; and every
emitted `P-DATA` PDU carries exactly one PDV. -/
theorem send_message_fragmentation (cmdBytes dataBytes : List Nat) (pcid maxLen : Nat)
    (hm : 0 < maxLen) :
    (∀ opt, commandPdvs (sendMessage maxLen { commandBytes := cmdBytes, dataBytes := opt } pcid) =
      [{ valueType := .command, presentationContextId := pcid, isLast := true,
         data := cmdBytes }]) ∧
    (dataPdvs (sendMessage maxLen { commandBytes := cmdBytes, dataBytes := none } pcid) = []) ∧
    (dataBytes.length ≤ maxLen →
      dataPdvs (sendMessage maxLen
          { commandBytes := cmdBytes, dataBytes := some dataBytes } pcid) =
        [{ valueType := .data, presentationContextId := pcid, isLast := true,
           data := dataBytes }]) ∧
    (maxLen < dataBytes.length →
      (dataPdvs (sendMessage maxLen
          { commandBytes := cmdBytes, dataBytes := some dataBytes } pcid)).length =
        (dataBytes.length + maxLen - 1) / maxLen ∧
      (dataPdvs (sendMessage maxLen
          { commandBytes := cmdBytes, dataBytes := some dataBytes } pcid)).map
          PDataValue.isLast =
        List.replicate
          ((dataPdvs (sendMessage maxLen
            { commandBytes := cmdBytes, dataBytes := some dataBytes } pcid)).length - 1)
          false ++ [true] ∧
      ((dataPdvs (sendMessage maxLen
          { commandBytes := cmdBytes, dataBytes := some dataBytes } pcid)).map
          PDataValue.data).flatten = dataBytes ∧
      (∀ pdv ∈ dataPdvs (sendMessage maxLen
          { commandBytes := cmdBytes, dataBytes := some dataBytes } pcid),
        pdv.presentationContextId = pcid)) ∧
    (∀ opt, ∀ pdu ∈ sendMessage maxLen { commandBytes := cmdBytes, dataBytes := opt } pcid,
      pdu.length = 1) := by
  have hcmd : chunkedSend maxLen
      [{ valueType := .command, presentationContextId := pcid, isLast := true,
         data := cmdBytes }] =
      [[{ valueType := .command, presentationContextId := pcid, isLast := true,
          data := cmdBytes }]] := by
    simp [chunkedSend]
  refine ⟨?_, ?_, ?_, ?_, ?_⟩
  · intro opt
    cases opt with
    | none => simp [sendMessage, writeMessage, hcmd, commandPdvs]
    | some d =>
      simp only [sendMessage, writeMessage, List.flatMap_append, List.flatMap_cons,
        List.flatMap_nil, hcmd, commandPdvs]
      by_cases hd : maxLen < d.length
      · simp [chunkedSend, hd, pdataWriterPdus, List.filter_append]
      · have hdle : d.length ≤ maxLen := by omega
        simp [chunkedSend, Nat.not_lt.mpr hdle, commandPdvs, List.filter_append]
  · simp [sendMessage, writeMessage, hcmd, dataPdvs]
  · intro hle
    simp only [sendMessage, writeMessage, List.flatMap_append, List.flatMap_cons,
      List.flatMap_nil, hcmd, dataPdvs]
    simp [chunkedSend, Nat.not_lt.mpr hle, List.filter_append]
  · intro hgt
    have hne : ¬ dataBytes.length ≤ maxLen := by omega
    have hdp : dataPdvs (sendMessage maxLen
        { commandBytes := cmdBytes, dataBytes := some dataBytes } pcid) =
        (markLast (chunkBytes maxLen dataBytes)).map
          (fun chunk =>
            { valueType := .data, presentationContextId := pcid, isLast := chunk.2,
              data := chunk.1 }) := by
      simp only [sendMessage, writeMessage, List.flatMap_append, List.flatMap_cons,
        List.flatMap_nil, hcmd, dataPdvs]
      simp [chunkedSend, hgt, pdataWriterPdus, List.filter_append]
      induction markLast (chunkBytes maxLen dataBytes) with
      | nil => rfl
      | cons c cs ih => simp [ih]
    have hclen := chunkBytes_length_eq maxLen hm dataBytes.length dataBytes rfl (by omega)
    have hmll := markLast_length (chunkBytes maxLen dataBytes)
    refine ⟨?_, ?_, ?_, ?_⟩
    · rw [hdp]
      simp [hmll, hclen]
    · rw [hdp]
      have hsnd := markLast_map_snd (chunkBytes maxLen dataBytes)
        (chunkBytes_ne_nil maxLen dataBytes)
      simp only [List.map_map, List.length_map, hmll]
      have hcomp : (PDataValue.isLast ∘ fun chunk : List Nat × Bool =>
          ({ valueType := .data, presentationContextId := pcid, isLast := chunk.2,
             data := chunk.1 } : PDataValue)) = Prod.snd := rfl
      rw [hcomp, hsnd]
    · rw [hdp]
      have hfst := markLast_map_fst (chunkBytes maxLen dataBytes)
      simp only [List.map_map]
      have hcomp : (PDataValue.data ∘ fun chunk : List Nat × Bool =>
          ({ valueType := .data, presentationContextId := pcid, isLast := chunk.2,
             data := chunk.1 } : PDataValue)) = Prod.fst := rfl
      rw [hcomp, hfst, chunkBytes_flatten maxLen dataBytes.length dataBytes rfl]
    · rw [hdp]
      intro pdv hpdv
      simp only [List.mem_map] at hpdv
      obtain ⟨chunk, -, rfl⟩ := hpdv
      rfl
  · intro opt pdu hpdu
    cases opt with
    | none =>
      simp [sendMessage, writeMessage, hcmd] at hpdu
      simp [hpdu]
    | some d =>
      simp only [sendMessage, writeMessage, List.flatMap_append, List.flatMap_cons,
        List.flatMap_nil, hcmd, List.append_nil, List.mem_append, List.mem_cons,
        List.not_mem_nil, or_false] at hpdu
      rcases hpdu with rfl | hpdu
      · rfl
      · by_cases hd : maxLen < d.length
        · have hcs : chunkedSend maxLen
              [{ valueType := .data, presentationContextId := pcid, isLast := true,
                 data := d }] = pdataWriterPdus pcid maxLen d := by
            simp [chunkedSend, hd]
          rw [hcs] at hpdu
          exact pdataWriterPdus_singleton pcid maxLen d pdu hpdu
        · simp [chunkedSend, Nat.not_lt.mpr (by omega : d.length ≤ maxLen)] at hpdu
          simp [hpdu]

/-- Witness for claim C2's theorem: a 5-byte data set sent with max PDU
length 2 yields three Data PDVs, `is_last` only on the final one. -/
theorem send_message_fragmentation_witness :
    (dataPdvs (sendMessage 2 { commandBytes := [0], dataBytes := some [1, 2, 3, 4, 5] } 1)).length
      = 3 ∧
    (dataPdvs (sendMessage 2
      { commandBytes := [0], dataBytes := some [1, 2, 3, 4, 5] } 1)).map PDataValue.isLast
      = [false, false, true] := by
  have h := (send_message_fragmentation [0] [1, 2, 3, 4, 5] 1 2 (by decide)).2.2.2.1
    (by decide)
  refine ⟨?_, ?_⟩
  · rw [h.1]
    decide
  · rw [h.2.1, h.1]
    decide

/-!
Section: C-FIND response stream.

Embeds the response loop of `FindServiceClassUser::invoke` from
`src/backend/dimse/cfind/findscu.rs` (lines 71-93). A `CompositeFindResponse`
carries the status word and the optional identifier (abstracted to a
number). The loop body: if the response carries a data set, yield it; then
classify the status and break when it is not Pending. The embedding folds
the loop over the (finite) list of responses the association delivers, in
order: the result is the yielded identifiers plus how the stream ended. -/

/-- Embedding of `CompositeFindResponse` (cfind/mod.rs lines 43-47) with the
identifier abstracted to a number. -/
structure CompositeFindResponse where
  status : Nat
  data : Option Nat
  deriving DecidableEq, Repr

/-- How the modelled find stream ends: `completed` after a non-Pending
status broke the loop; `errored` when a status would surface an error item;
`awaiting` when the modelled response list ran out while the loop would
still be receiving. -/
inductive FindStreamEnd where
  | completed
  | errored
  | awaiting
  deriving DecidableEq, Repr

/-- Embedding of the `loop` in `FindServiceClassUser::invoke` (findscu.rs
lines 77-91): yield the response's data set if present, then break when the
status does not classify as Pending. -/
def findLoop : List CompositeFindResponse → List Nat × FindStreamEnd
  | [] => ([], .awaiting)
  | r :: rest =>
    let yielded := match r.data with
      | some d => [d]
      | none => []
    if statusClass r.status ≠ .pending then (yielded, .completed)
    else
      let step := findLoop rest
      (yielded ++ step.1, step.2)

/-- Stream of identifiers written from the claim's words: one identifier for
each response whose status classifies as Pending and that carries a data
set, the stream stopping at the first terminal status. -/
def specFindYields : List CompositeFindResponse → List Nat
  | [] => []
  | r :: rest =>
    if statusClass r.status = .pending then
      (match r.data with
       | some d => [d]
       | none => []) ++ specFindYields rest
    else []

/-- The responses seen by the loop: the Pending run plus the first
non-Pending response, if any. -/
def firstTerminalSplit (rs : List CompositeFindResponse) : List CompositeFindResponse :=
  rs.takeWhile (fun r => statusClass r.status = .pending) ++
    (rs.dropWhile (fun r => statusClass r.status = .pending)).take 1

/-- Counterexample to claim C4 as stated: a C-FIND response with terminal
status Success (`0x0000`) carrying a data set still has its identifier
yielded by the loop (the yield happens before the status check), so the
stream is not restricted to Pending responses; and a response with a Failure
status (`0xA000`) ends the stream normally with no error item surfaced. -/
theorem find_stream_counterexample :
    statusClass 0 ≠ .pending ∧
    findLoop [{ status := 0, data := some 7 }] = ([7], .completed) ∧
    specFindYields [{ status := 0, data := some 7 }] = [] ∧
    (findLoop [{ status := 0, data := some 7 }]).1 ≠
      specFindYields [{ status := 0, data := some 7 }] ∧
    statusClass 0xA000 = .failure ∧
    findLoop [{ status := 0xA000, data := none }] = ([], .completed) := by
  refine ⟨by decide, by decide, by decide, by decide, by decide, by decide⟩

/-- Claim C4, amended: the yielded stream contains one identifier for each
response that carries a data set among the responses up to and including the
first response whose status does not classify as Pending; that first
non-Pending response ends the stream normally whether it is Success,
Failure, Cancel or Warning, and no error is surfaced from the status. -/
theorem find_stream_amended (rs : List CompositeFindResponse) :
    (findLoop rs).1 = (firstTerminalSplit rs).filterMap CompositeFindResponse.data ∧
    ((findLoop rs).2 = .completed ↔ ∃ r ∈ rs, statusClass r.status ≠ .pending) ∧
    (findLoop rs).2 ≠ .errored := by
  induction rs with
  | nil => simp [findLoop, firstTerminalSplit]
  | cons r rest ih =>
    by_cases hp : statusClass r.status = .pending
    · have h1 : findLoop (r :: rest) =
          ((match r.data with | some d => [d] | none => []) ++ (findLoop rest).1,
            (findLoop rest).2) := by
        simp [findLoop, hp]
      have h2 : firstTerminalSplit (r :: rest) = r :: firstTerminalSplit rest := by
        simp [firstTerminalSplit, List.takeWhile_cons, List.dropWhile_cons, hp]
      refine ⟨?_, ?_, ?_⟩
      · rw [h1, h2]
        simp only [List.filterMap_cons]
        cases r.data with
        | none => simpa using ih.1
        | some d => simpa using ih.1
      · rw [h1]
        simp only [List.mem_cons]
        constructor
        · intro hc
          obtain ⟨r2, hr2, hne⟩ := ih.2.1.mp hc
          exact ⟨r2, Or.inr hr2, hne⟩
        · intro ⟨r2, hr2, hne⟩
          rcases hr2 with rfl | hr2
          · exact absurd hp hne
          · exact ih.2.1.mpr ⟨r2, hr2, hne⟩
      · rw [h1]
        exact ih.2.2
    · have h1 : findLoop (r :: rest) =
          ((match r.data with | some d => [d] | none => []), .completed) := by
        simp [findLoop, hp]
      have h2 : firstTerminalSplit (r :: rest) = [r] := by
        simp [firstTerminalSplit, List.takeWhile_cons, List.dropWhile_cons, hp]
      refine ⟨?_, ?_, ?_⟩
      · rw [h1, h2]
        rcases hd : r.data with _ | d <;> simp [hd, List.filterMap_cons]
      · rw [h1]
        exact ⟨fun _ => ⟨r, List.mem_cons_self r rest, hp⟩, fun _ => rfl⟩
      · rw [h1]
        simp

/-!
Section: Store-SCP per-connection loop.

Embeds the publish handling of `StoreServiceClassProvider::process` from
`src/backend/dimse/cstore/storescp.rs` (lines 88-182): for each received
message, the provider publishes the file to every configured subscriber and
pattern-matches a failed publish — `MediatorError::ChannelClosed` is logged
at error level, `MediatorError::MissingCallback` at warn level — after which
the `while` loop reads the next message. The loop is folded over the list of
messages the peer delivers; each message is abstracted to the list of
publish outcomes, one per configured subscriber. -/

/-- Outcome of one `mediator.publish` call for one subscriber. -/
inductive PublishOutcome where
  | ok
  | channelClosed
  | missingCallback
  deriving DecidableEq, Repr

/-- One received C-STORE-RQ message, abstracted to its publish outcomes (one
per configured subscriber, in order). -/
structure StoreScpMessage where
  publishOutcomes : List PublishOutcome
  deriving DecidableEq, Repr

/-- Observable events of the per-connection loop, tagged with message index
and subscriber index. -/
inductive ScpEvent where
  | published (msgIdx subIdx : Nat)
  | loggedError (msgIdx subIdx : Nat)
  | loggedWarn (msgIdx subIdx : Nat)
  deriving DecidableEq, Repr

/-- The event the loop produces for one publish outcome: success delivers
the file; `ChannelClosed` hits the `error!` arm; `MissingCallback` hits the
`warn!` arm (storescp.rs lines 175-179). -/
def eventForOutcome (o : PublishOutcome) (msgIdx subIdx : Nat) : ScpEvent :=
  match o with
  | .ok => .published msgIdx subIdx
  | .channelClosed => .loggedError msgIdx subIdx
  | .missingCallback => .loggedWarn msgIdx subIdx

/-- The `for sub_aet in &inner.subscribers` publish loop of one message. -/
def processPublishes (msgIdx subIdx : Nat) : List PublishOutcome → List ScpEvent
  | [] => []
  | o :: rest => eventForOutcome o msgIdx subIdx :: processPublishes msgIdx (subIdx + 1) rest

/-- The `while let Ok(message) = association.read_message(..)` loop: every
message is processed, regardless of earlier publish failures (the match on
the publish error only logs). -/
def storeScpLoopFrom (msgIdx : Nat) : List StoreScpMessage → List ScpEvent
  | [] => []
  | m :: rest =>
    processPublishes msgIdx 0 m.publishOutcomes ++ storeScpLoopFrom (msgIdx + 1) rest

/-- The whole per-connection loop over the messages the peer delivers. -/
def storeScpLoop (msgs : List StoreScpMessage) : List ScpEvent :=
  storeScpLoopFrom 0 msgs

/-- Loop written from the claim's words: a `ChannelClosed` publish failure
stops reading further messages from the peer; `MissingCallback` is logged
and the loop continues. -/
def specStoreScpLoopFrom (msgIdx : Nat) : List StoreScpMessage → List ScpEvent
  | [] => []
  | m :: rest =>
    let events := processPublishes msgIdx 0 m.publishOutcomes
    if m.publishOutcomes.contains .channelClosed then events
    else events ++ specStoreScpLoopFrom (msgIdx + 1) rest

/-- Loop from the claim's words, started at the first message. -/
def specStoreScpLoop (msgs : List StoreScpMessage) : List ScpEvent :=
  specStoreScpLoopFrom 0 msgs

/-- Counterexample to claim C5 as stated: after a `ChannelClosed` publish
failure on the first message, the loop still processes the second message
(the failure is merely logged at error level), whereas the claim requires it
to stop reading from the peer. -/
theorem storescp_channelclosed_counterexample :
    storeScpLoop [{ publishOutcomes := [.channelClosed] }, { publishOutcomes := [.ok] }] =
      [.loggedError 0 0, .published 1 0] ∧
    specStoreScpLoop [{ publishOutcomes := [.channelClosed] }, { publishOutcomes := [.ok] }] =
      [.loggedError 0 0] ∧
    storeScpLoop [{ publishOutcomes := [.channelClosed] }, { publishOutcomes := [.ok] }] ≠
      specStoreScpLoop [{ publishOutcomes := [.channelClosed] }, { publishOutcomes := [.ok] }] := by
  refine ⟨by decide, by decide, by decide⟩

theorem processPublishes_mem (outcomes : List PublishOutcome) :
    ∀ msgIdx subBase subIdx o, outcomes[subIdx]? = some o →
      eventForOutcome o msgIdx (subBase + subIdx) ∈ processPublishes msgIdx subBase outcomes := by
  induction outcomes with
  | nil => intro _ _ subIdx o h; simp at h
  | cons x rest ih =>
    intro msgIdx subBase subIdx o h
    cases subIdx with
    | zero =>
      simp at h
      subst h
      simp [processPublishes]
    | succ j =>
      simp at h
      have := ih msgIdx (subBase + 1) j o (by simpa using h)
      simp only [processPublishes, List.mem_cons]
      right
      have harith : subBase + 1 + j = subBase + (j + 1) := by omega
      rwa [harith] at this

theorem storeScpLoopFrom_mem (msgs : List StoreScpMessage) :
    ∀ msgBase msgIdx subIdx (m : StoreScpMessage) (o : PublishOutcome),
      msgs[msgIdx]? = some m →
      m.publishOutcomes[subIdx]? = some o →
      eventForOutcome o (msgBase + msgIdx) subIdx ∈ storeScpLoopFrom msgBase msgs := by
  induction msgs with
  | nil => intro _ msgIdx _ _ _ h; simp at h
  | cons x rest ih =>
    intro msgBase msgIdx subIdx m o hm ho
    cases msgIdx with
    | zero =>
      simp at hm
      subst hm
      simp only [storeScpLoopFrom, List.mem_append]
      left
      simpa using processPublishes_mem x.publishOutcomes msgBase 0 subIdx o ho
    | succ i =>
      simp at hm
      have := ih (msgBase + 1) i subIdx m o (by simpa using hm) ho
      simp only [storeScpLoopFrom, List.mem_append]
      right
      have harith : msgBase + 1 + i = msgBase + (i + 1) := by omega
      rwa [harith] at this

/-- Claim C5, amended: a publish failure never stops the per-connection
loop — both failure kinds are logged (`ChannelClosed` at error level,
`MissingCallback` at warn level) and the loop continues with the next
message; every delivered message is processed and each publish outcome
produces its corresponding event. -/
theorem storescp_publish_failures_logged (msgs : List StoreScpMessage)
    (msgIdx subIdx : Nat) (m : StoreScpMessage) (o : PublishOutcome)
    (hm : msgs[msgIdx]? = some m) (ho : m.publishOutcomes[subIdx]? = some o) :
    eventForOutcome o msgIdx subIdx ∈ storeScpLoop msgs := by
  have := storeScpLoopFrom_mem msgs 0 msgIdx subIdx m o hm ho
  simpa [storeScpLoop] using this

/-- Witness for claim C5's amended theorem: the message after a
`ChannelClosed` failure is still processed and its file published. -/
theorem storescp_publish_failures_logged_witness :
    ScpEvent.published 1 0 ∈
      storeScpLoop [{ publishOutcomes := [.channelClosed] }, { publishOutcomes := [.ok] }] :=
  storescp_publish_failures_logged
    [{ publishOutcomes := [.channelClosed] }, { publishOutcomes := [.ok] }]
    1 0 { publishOutcomes := [.ok] } .ok (by decide) (by decide)

/-!
Section: Store-SCP data-set unwrap.

Embeds the file construction of `StoreServiceClassProvider::process`
(storescp.rs lines 151-164) together with the data-set framing rule of
`DicomMessageReader::read_message` (mod.rs lines 240-255): the framer
returns `data = None` exactly when the command set's
`CommandDataSetType (0000,0800)` equals the `DATA_SET_MISSING` sentinel
`0x0101` (or is absent/unreadable); the provider then calls
`message.data.unwrap()` unconditionally after sending the success
C-STORE-RSP. -/

/-- An incoming message at the Store-SCP, abstracted to the fields the
unwrap depends on: the command field, the command set's data-set-type
attribute, and the data-set bytes the peer sent (used only when framed). -/
structure StoreScpIncoming where
  commandField : Nat
  dataSetType : Option Nat
  payload : List Nat
  deriving DecidableEq, Repr

/-- Embedding of the `has_data_set` test in `read_message` (mod.rs lines
240-244): true iff the attribute is present, readable and different from
`DATA_SET_MISSING = 0x0101`. -/
def commandHasDataSet (dataSetType : Option Nat) : Bool :=
  match dataSetType with
  | some v => v ≠ 0x0101
  | none => false

/-- The `data` field of the `DicomMessage` the framer hands to `process`. -/
def framedData (msg : StoreScpIncoming) : Option (List Nat) :=
  if commandHasDataSet msg.dataSetType then some msg.payload else none

/-- Outcome of the file-construction step of `process` for one message. -/
inductive StoreProcessOutcome where
  | rejected
  | panicked
  | published (file : List Nat)
  deriving DecidableEq, Repr

/-- Embedding of the per-message step of `process` around the unwrap: a
non-C-STORE-RQ command field returns an error closing the connection
(storescp.rs lines 105-109); otherwise, after the C-STORE-RSP is sent,
`message.data.unwrap()` panics when the framer produced no data set and
otherwise yields the file object to publish. -/
def storeProcessStep (msg : StoreScpIncoming) : StoreProcessOutcome :=
  if msg.commandField ≠ 0x0001 then .rejected
  else
    match framedData msg with
    | none => .panicked
    | some d => .published d

/-- Claim C10: constructing the file object unconditionally unwraps
`message.data` after the success C-STORE-RSP is sent; it does not panic
exactly when the accepted C-STORE-RQ carries a data set, and for a message
framed with `data = None` (data-set-type sentinel `0x0101`) the handler
panics instead of returning an error. -/
theorem storescp_unwrap_panics :
    (∀ msg : StoreScpIncoming, ∀ d, msg.commandField = 0x0001 → framedData msg = some d →
      storeProcessStep msg = .published d) ∧
    (∀ msg : StoreScpIncoming, msg.commandField = 0x0001 → framedData msg = none →
      storeProcessStep msg = .panicked) ∧
    (∀ msg : StoreScpIncoming, msg.dataSetType = some 0x0101 → framedData msg = none) := by
  refine ⟨?_, ?_, ?_⟩
  · intro msg d hc hd
    simp [storeProcessStep, hc, hd]
  · intro msg hc hd
    simp [storeProcessStep, hc, hd]
  · intro msg hd
    simp [framedData, commandHasDataSet, hd]

/-- Witness for claim C10's theorem: a C-STORE-RQ whose command set carries
the `0x0101` sentinel is framed without a data set and makes the handler
panic. -/
theorem storescp_unwrap_panics_witness :
    storeProcessStep { commandField := 0x0001, dataSetType := some 0x0101, payload := [] } =
      .panicked :=
  storescp_unwrap_panics.2.1
    { commandField := 0x0001, dataSetType := some 0x0101, payload := [] } rfl
    (storescp_unwrap_panics.2.2
      { commandField := 0x0001, dataSetType := some 0x0101, payload := [] } rfl)

/-!
Section: WADO metadata bulk-data filter.

Embeds `remove_bulkdata` and `BulkdataRemovalOptions` from
`src/api/wado/routes.rs` (lines 182-232). A DICOM object is a list of
elements; an element is either a primitive (tag, VR, value length in bytes)
or a sequence of item objects (VR `SQ`). The code first calls
`remove_element` for six fixed tags, then iterates over the remaining
elements: binary VRs are removed, `UN`/`UT` elements longer than the
configured threshold are removed, sequences are filtered recursively. -/

/-- The value representations the filter distinguishes (plus a sample of
other VRs that pass through untouched). -/
inductive VR where
  | OB
  | OW
  | OD
  | OF
  | OL
  | UN
  | UT
  | SQ
  | UI
  | CS
  | LT
  deriving DecidableEq, Repr

/-- A DICOM element: a primitive value abstracted to its byte length, or a
sequence of item objects. Tags are `GGGGEEEE` numbers. -/
inductive DicomElement where
  | prim (tag : Nat) (vr : VR) (length : Nat)
  | seq (tag : Nat) (items : List (List DicomElement))

/-- The tag of an element. -/
def DicomElement.tag : DicomElement → Nat
  | .prim t _ _ => t
  | .seq t _ => t

/-- Embedding of `BulkdataRemovalOptions`. -/
structure BulkdataRemovalOptions where
  maxLength : Nat
  deriving DecidableEq, Repr

/-- Embedding of `Default for BulkdataRemovalOptions` (routes.rs lines
187-191). -/
def defaultBulkdataRemovalOptions : BulkdataRemovalOptions :=
  { maxLength := 10240 }

/-- The six fixed tags removed first (routes.rs lines 194-199): `PixelData`,
`FloatPixelData`, `DoubleFloatPixelData`, `PixelDataProviderURL`,
`SpectroscopyData`, `EncapsulatedDocument`. -/
def bulkdataTags : List Nat :=
  [0x7FE00010, 0x7FE00008, 0x7FE00009, 0x00287FE0, 0x56000020, 0x00420011]

/-- The binary VRs removed unconditionally (routes.rs line 211). -/
def binaryVR (vr : VR) : Bool :=
  match vr with
  | .OB | .OW | .OD | .OF | .OL => true
  | _ => false

theorem sizeOf_filter_le (p : DicomElement → Bool) (l : List DicomElement) :
    sizeOf (l.filter p) ≤ sizeOf l := by
  induction l with
  | nil => simp
  | cons x xs ih =>
    rw [List.filter_cons]
    by_cases hp : p x = true
    · rw [if_pos hp]
      simp only [List.cons.sizeOf_spec]
      omega
    · rw [if_neg hp]
      simp only [List.cons.sizeOf_spec]
      omega

/-- The phase-one keep predicate: the element's tag is not one of the six
fixed bulk-data tags. -/
def keepTag (e : DicomElement) : Bool :=
  !(bulkdataTags.contains e.tag)

mutual

/-- Embedding of the `for tag in tags` scan of `remove_bulkdata` (routes.rs
lines 205-231): binary VRs are removed; `UN`/`UT` longer than the threshold
are removed; sequences keep their tag and recurse into their items; all
other elements are kept. -/
def removeBulkdataScan (opts : BulkdataRemovalOptions) :
    List DicomElement → List DicomElement
  | [] => []
  | e :: rest =>
    match e with
    | .prim t vr len =>
      if binaryVR vr then removeBulkdataScan opts rest
      else if (vr = .UN ∨ vr = .UT) ∧ opts.maxLength < len then removeBulkdataScan opts rest
      else .prim t vr len :: removeBulkdataScan opts rest
    | .seq t items => .seq t (removeBulkdataItems opts items) :: removeBulkdataScan opts rest
termination_by l => sizeOf l
decreasing_by
  all_goals simp only [List.cons.sizeOf_spec, DicomElement.seq.sizeOf_spec]
  all_goals omega

/-- Recursion into the items of one sequence (`sequence.items_mut()`,
routes.rs lines 220-228). -/
def removeBulkdataItems (opts : BulkdataRemovalOptions) :
    List (List DicomElement) → List (List DicomElement)
  | [] => []
  | item :: rest => removeBulkdata opts item :: removeBulkdataItems opts rest
termination_by ls => sizeOf ls + 1
decreasing_by
  all_goals simp only [List.cons.sizeOf_spec]
  all_goals omega

/-- Embedding of `remove_bulkdata` (routes.rs lines 193-232): remove the six
fixed tags, then scan the remaining elements. -/
def removeBulkdata (opts : BulkdataRemovalOptions) (object : List DicomElement) :
    List DicomElement :=
  removeBulkdataScan opts (object.filter keepTag)
termination_by sizeOf object + 1
decreasing_by
  have := sizeOf_filter_le keepTag object
  omega

end

mutual

/-- Claim C7's filter, written from the spec's words as a single pass:
remove every element whose tag is in the fixed set, every element whose VR
is in `{OB, OW, OD, OF, OL}`, and every `UN`/`UT` element whose length
exceeds the threshold; recurse into sequence items; keep everything else. -/
def specBulkFilter (opts : BulkdataRemovalOptions) :
    List DicomElement → List DicomElement
  | [] => []
  | e :: rest =>
    if bulkdataTags.contains e.tag then specBulkFilter opts rest
    else
      match e with
      | .prim t vr len =>
        if binaryVR vr then specBulkFilter opts rest
        else if (vr = .UN ∨ vr = .UT) ∧ opts.maxLength < len then specBulkFilter opts rest
        else .prim t vr len :: specBulkFilter opts rest
      | .seq t items => .seq t (specBulkFilterItems opts items) :: specBulkFilter opts rest
termination_by l => sizeOf l
decreasing_by
  all_goals simp only [List.cons.sizeOf_spec, DicomElement.seq.sizeOf_spec]
  all_goals omega

/-- The spec-side filter applied to sequence items. -/
def specBulkFilterItems (opts : BulkdataRemovalOptions) :
    List (List DicomElement) → List (List DicomElement)
  | [] => []
  | item :: rest => specBulkFilter opts item :: specBulkFilterItems opts rest
termination_by ls => sizeOf ls
decreasing_by
  all_goals simp only [List.cons.sizeOf_spec]
  all_goals omega

end

theorem bulk_eq_aux (opts : BulkdataRemovalOptions) :
    ∀ n : Nat,
      (∀ l : List DicomElement, sizeOf l ≤ n →
        removeBulkdataScan opts (l.filter keepTag) = specBulkFilter opts l) ∧
      (∀ items : List (List DicomElement), sizeOf items ≤ n →
        removeBulkdataItems opts items = specBulkFilterItems opts items) := by
  intro n
  induction n using Nat.strong_induction_on with
  | _ n ih =>
    constructor
    · intro l hsize
      cases l with
      | nil => simp [removeBulkdataScan, specBulkFilter]
      | cons e rest =>
        have hrn : sizeOf rest < n := by
          have h0 : sizeOf rest < sizeOf (e :: rest) := by
            simp only [List.cons.sizeOf_spec]
            omega
          omega
        have ihrest := (ih (sizeOf rest) hrn).1 rest (Nat.le_refl _)
        rw [List.filter_cons]
        by_cases hb : bulkdataTags.contains e.tag = true
        · have hk : keepTag e = false := by
            simp only [keepTag, hb, Bool.not_true]
          have hmem : e.tag ∈ bulkdataTags := by simpa using hb
          rw [hk, if_neg (by simp), ihrest]
          conv_rhs => rw [specBulkFilter.eq_def]
          simp [hmem]
        · have hc : bulkdataTags.contains e.tag = false := Bool.eq_false_iff.mpr hb
          have hk : keepTag e = true := by
            simp only [keepTag, hc, Bool.not_false]
          have hmem : e.tag ∉ bulkdataTags := by simpa using hc
          rw [hk, if_pos rfl]
          cases e with
          | prim t vr len =>
            conv_lhs => rw [removeBulkdataScan.eq_def]
            conv_rhs => rw [specBulkFilter.eq_def]
            simp [hmem, ihrest]
          | seq t items =>
            have hin : sizeOf items < n := by
              have h0 : sizeOf items < sizeOf ((DicomElement.seq t items) :: rest) := by
                simp only [List.cons.sizeOf_spec, DicomElement.seq.sizeOf_spec]
                omega
              omega
            have ihitems := (ih (sizeOf items) hin).2 items (Nat.le_refl _)
            conv_lhs => rw [removeBulkdataScan.eq_def]
            conv_rhs => rw [specBulkFilter.eq_def]
            simp [hmem, ihrest, ihitems]
    · intro items hsize
      cases items with
      | nil => simp [removeBulkdataItems, specBulkFilterItems]
      | cons item rest =>
        have hitem : sizeOf item < n := by
          have h0 : sizeOf item < sizeOf (item :: rest) := by
            simp only [List.cons.sizeOf_spec]
            omega
          omega
        have hrest : sizeOf rest < n := by
          have h0 : sizeOf rest < sizeOf (item :: rest) := by
            simp only [List.cons.sizeOf_spec]
            omega
          omega
        rw [removeBulkdataItems, specBulkFilterItems, removeBulkdata,
          (ih (sizeOf item) hitem).1 item (Nat.le_refl _),
          (ih (sizeOf rest) hrest).2 rest (Nat.le_refl _)]

/-- Claim C7: the bulk-data filter removes exactly the elements whose tag is
in the fixed six-tag set, those whose VR is in `{OB, OW, OD, OF, OL}`, and
the `UN`/`UT` elements whose length exceeds the configured threshold
(default 10240 bytes), recursing into sequence items — `remove_bulkdata`
equals the single-pass filter transcribed from the spec, and the default
threshold is 10240. -/
theorem remove_bulkdata_exact (opts : BulkdataRemovalOptions) (object : List DicomElement) :
    removeBulkdata opts object = specBulkFilter opts object ∧
    defaultBulkdataRemovalOptions.maxLength = 10240 := by
  refine ⟨?_, rfl⟩
  rw [removeBulkdata]
  exact (bulk_eq_aux opts (sizeOf object)).1 object (Nat.le_refl _)

/-!
Section: WADO retrieve identifier.

Embeds `DimseWadoService::create_identifier` (src/backend/dimse/wado.rs
lines 245-272) and the identifier built by `DimseWadoService::retrieve`
(lines 43-72, in particular line 65). An identifier is a list of
(tag, string value) pairs; the tags are `QueryRetrieveLevel (0008,0052)`,
`StudyInstanceUID (0020,000D)`, `SeriesInstanceUID (0020,000E)` and
`SOPInstanceUID (0008,0018)`; the `QueryRetrieveLevel` display strings are
those of `impl Display for QueryRetrieveLevel` (src/types.rs). -/

/-- An identifier data set abstracted to its (tag, string value) pairs. -/
abbrev Identifier := List (Nat × String)

/-- Embedding of `DimseWadoService::create_identifier` (wado.rs lines
245-272): build the identifier at the most specific query-retrieve level of
the supplied UIDs; any other combination yields an empty identifier. -/
def createIdentifier (study series sop : Option String) : Identifier :=
  match study, series, sop with
  | some st, none, none =>
      [(0x00080052, "STUDY"), (0x0020000D, st)]
  | some st, some se, none =>
      [(0x00080052, "SERIES"), (0x0020000D, st), (0x0020000E, se)]
  | some st, some se, some inst =>
      [(0x00080052, "IMAGE"), (0x0020000D, st), (0x0020000E, se), (0x00080018, inst)]
  | _, _, _ => []

/-- The WADO-RS retrieve request's query part:
`{AET, study, [series], [sop_instance]}`. -/
structure RetrieveQuery where
  studyInstanceUid : String
  seriesInstanceUid : Option String
  sopInstanceUid : Option String
  deriving DecidableEq, Repr

/-- The identifier built by `DimseWadoService::retrieve` (wado.rs line 65):
`Self::create_identifier(Some(&request.query.study_instance_uid), None,
None)` — only the study UID is passed. -/
def retrieveIdentifier (query : RetrieveQuery) : Identifier :=
  createIdentifier (some query.studyInstanceUid) none none

/-- The identifier claim C8 describes: built at the most specific level the
request supplies. -/
def specRetrieveIdentifier (query : RetrieveQuery) : Identifier :=
  createIdentifier (some query.studyInstanceUid) query.seriesInstanceUid query.sopInstanceUid

/-- Counterexample to claim C8 as stated: for a request that also supplies a
series UID, `retrieve` still builds a Study-level identifier containing only
the study UID, not the Series-level identifier the claim requires. -/
theorem retrieve_identifier_counterexample :
    retrieveIdentifier
        { studyInstanceUid := "1.2.3", seriesInstanceUid := some "4.5",
          sopInstanceUid := none } =
      [(0x00080052, "STUDY"), (0x0020000D, "1.2.3")] ∧
    specRetrieveIdentifier
        { studyInstanceUid := "1.2.3", seriesInstanceUid := some "4.5",
          sopInstanceUid := none } =
      [(0x00080052, "SERIES"), (0x0020000D, "1.2.3"), (0x0020000E, "4.5")] ∧
    retrieveIdentifier
        { studyInstanceUid := "1.2.3", seriesInstanceUid := some "4.5",
          sopInstanceUid := none } ≠
      specRetrieveIdentifier
        { studyInstanceUid := "1.2.3", seriesInstanceUid := some "4.5",
          sopInstanceUid := none } := by
  refine ⟨rfl, rfl, by decide⟩

/-- Claim C8, amended: `retrieve` always builds the C-MOVE identifier at
Study level with the study UID only, regardless of any series or SOP
instance UID in the request; `create_identifier` itself builds at the most
specific level of its non-`None` arguments (Study, Series or Image). -/
theorem retrieve_identifier_amended (query : RetrieveQuery) :
    retrieveIdentifier query =
      [(0x00080052, "STUDY"), (0x0020000D, query.studyInstanceUid)] ∧
    (∀ st, createIdentifier (some st) none none =
      [(0x00080052, "STUDY"), (0x0020000D, st)]) ∧
    (∀ st se, createIdentifier (some st) (some se) none =
      [(0x00080052, "SERIES"), (0x0020000D, st), (0x0020000E, se)]) ∧
    (∀ st se inst, createIdentifier (some st) (some se) (some inst) =
      [(0x00080052, "IMAGE"), (0x0020000D, st), (0x0020000E, se), (0x00080018, inst)]) :=
  ⟨rfl, fun _ => rfl, fun _ _ => rfl, fun _ _ _ => rfl⟩

end DicomRst
